import Mathlib

/-
Verification of the Nitro UI-component runtime (Nitro.ts) against its
natural-language specification.  The TypeScript source is shallowly embedded:
mutable module state (the dirty-component list, the scheduler flags) becomes an
explicit state record, DOM objects become explicit inductive values with `Nat`
identities standing for JavaScript reference identity, and thrown exceptions
become `Except` / `Option String` results.  Line numbers in the doc comments
refer to Nitro.ts.
-/

namespace NitroModel

/-! ## String helpers (substring testing, used to reason about error messages) -/

/-- Boolean test that `p` is a prefix of `l` (character lists). -/
def isPrefixList : List Char → List Char → Bool
  | [], _ => true
  | _ :: _, [] => false
  | a :: as, b :: bs => if a = b then isPrefixList as bs else false

/-- Boolean test that `sub` occurs as a contiguous sublist of the second argument. -/
def listContainsSublist (sub : List Char) : List Char → Bool
  | [] => isPrefixList sub []
  | h :: t => isPrefixList sub (h :: t) || listContainsSublist sub t

/-- Boolean test that the string `sub` occurs inside `hay`. -/
def strContains (hay sub : String) : Bool :=
  listContainsSublist sub.data hay.data

/-! ## JavaScript-ish input values

`Component.setInput` / `PureComponent.setInput` treat inputs as arbitrary
JavaScript values; what matters to the embedded code is whether a value is
`null`, an object (a finite field map; field values are opaque `Nat` atoms
compared with JavaScript `!==`, i.e. reference/primitive identity), or a
non-object primitive (`typeof input !== 'object'`). -/

inductive Input where
  | null
  | obj (fields : List (String × Nat))
  | prim (tag : Nat)
deriving DecidableEq

/-- Model of `typeof input === 'object'`: true for `null` and objects
(in JavaScript `typeof null === 'object'`), false for other values. -/
def jsTypeofIsObject : Input → Bool
  | Input.null => true
  | Input.obj _ => true
  | Input.prim _ => false

/-- Field lookup in an object literal (JavaScript first/unique key wins;
object field names are unique). -/
def lookupField : List (String × Nat) → String → Option Nat
  | [], _ => none
  | kv :: rest, k => if kv.fst = k then some kv.snd else lookupField rest k

/-- Model of `value[key]`: `none` is JavaScript `undefined` (absent field or
non-object receiver in the flows the source exercises). -/
def jsLookup : Input → String → Option Nat
  | Input.obj fields, k => lookupField fields k
  | _, _ => none

/-- Model of `for (const key in input)`: the own enumerable fields of `input`
(none for `null` or primitives). -/
def inputFields : Input → List (String × Nat)
  | Input.obj fields => fields
  | _ => []

/-! ## Component state for the `setInput` family (Nitro.ts lines 94–241)

`CompB` carries the observable per-component state these claims are about:
the stored `input`, the `_dirty` flag, plus instrumentation logs — the
arguments of every `inputChanged` invocation, the number of
`componentWasDirtied` registrations, and the number of `render` invocations. -/

structure CompB where
  input : Input
  dirty : Bool
  inputChangedCalls : List (Input × Input)
  dirtiedRegistrations : Nat
  renderCount : Nat
deriving DecidableEq

/-- Nitro.ts lines 125–130, `Component.setDirty`: no-op when already dirty,
else set the flag and register with the scheduler (`componentWasDirtied`). -/
def setDirtyB (c : CompB) : CompB :=
  if c.dirty then c
  else { c with dirty := true, dirtiedRegistrations := c.dirtiedRegistrations + 1 }

/-- Nitro.ts lines 155–160, `Component.getElement` as it affects this state:
when dirty, a (successful) rerender runs the render function once and clears
the flag. -/
def getElementB (c : CompB) : CompB :=
  if c.dirty then { c with dirty := false, renderCount := c.renderCount + 1 } else c

/-- Nitro.ts lines 114–121, `Component.setInput`: unless previous and new are
both `null`, assign `this.input = input` and then call
`this.inputChanged(previous, input)`; finally always call `this.setDirty()`. -/
def componentSetInput (c : CompB) (input : Input) : CompB :=
  let previous := c.input
  let c1 :=
    if previous ≠ Input.null ∨ input ≠ Input.null then
      { c with input := input,
               inputChangedCalls := c.inputChangedCalls ++ [(previous, input)] }
    else c
  setDirtyB c1

/-- Primitive operations performed by `Component.setInput`, in program order
(Nitro.ts lines 114–121), used to settle the claimed ordering between the
input assignment and the `inputChanged` notification. -/
inductive SetInputStep where
  | assignInput (v : Input)
  | invokeInputChanged (previous current : Input)
  | invokeSetDirty
deriving DecidableEq

/-- Trace of `Component.setInput` (Nitro.ts lines 114–121): line 117 assigns
`this.input = input`, line 118 then calls `this.inputChanged(previous, input)`,
line 120 calls `this.setDirty()`. -/
def componentSetInputTrace (previous input : Input) : List SetInputStep :=
  (if previous ≠ Input.null ∨ input ≠ Input.null then
    [SetInputStep.assignInput input, SetInputStep.invokeInputChanged previous input]
   else []) ++ [SetInputStep.invokeSetDirty]

/-- Nitro.ts lines 219–239, `PureComponent.setInput` (with `DEBUG_MODE = true`,
the source default, line 15): throw on a non-object input; otherwise detect a
change by comparing, for each own field of the NEW input, `previous[key] !==
input[key]` (a `null` previous always counts as changed); only on a change
assign the input, call `inputChanged(previous, input)` and `setDirty()`. -/
def pureSetInput (c : CompB) (input : Input) : Except String CompB :=
  if jsTypeofIsObject input = false then
    Except.error "Non-object input value given to instance of PureComponent, this will produce undesired behavior."
  else
    let previous := c.input
    let didChange :=
      if previous = Input.null then true
      else (inputFields input).any fun kv => decide (jsLookup previous kv.fst ≠ some kv.snd)
    if didChange then
      Except.ok (setDirtyB
        { c with input := input,
                 inputChangedCalls := c.inputChangedCalls ++ [(c.input, input)] })
    else
      Except.ok c

/-! ## Scheduler / dirty-set world (Nitro.ts lines 17–92)

The module-level mutable state (`_dirtyComponents`, `_pendingRaf`,
`_microtaskPending`, `_digestOnNextMicrotask`, `DIGEST_USING_MICROTASKS`)
becomes the record `SWorld`, together with the browser-side event queues
(`queuedMicrotasks` counts `window.queueMicrotask` callbacks queued but not yet
fired; `queuedRafs` counts outstanding `requestAnimationFrame` callbacks) and
instrumentation: `batchRuns` counts invocations of
`rerenderAllDirtyComponents`.  A component's render behavior is part of its
record: `renderThrows` says whether its `render()` throws. -/

structure SComp where
  cid : Nat
  dirty : Bool
  renderThrows : Bool
  renderCount : Nat
deriving DecidableEq

structure SWorld where
  comps : List SComp
  dirtyList : List Nat
  mode : Bool
  pendingRaf : Bool
  microtaskPending : Bool
  digestOnNextMicrotask : Bool
  queuedMicrotasks : Nat
  queuedRafs : Nat
  batchRuns : Nat
deriving DecidableEq

/-- Look a component up by its identity. -/
def getComp : List SComp → Nat → Option SComp
  | [], _ => none
  | c :: rest, cid => if c.cid = cid then some c else getComp rest cid

/-- Replace the component with the given identity. -/
def putComp (comps : List SComp) (c : SComp) : List SComp :=
  comps.map fun x => if x.cid = c.cid then c else x

/-- Remove the first occurrence of `cid` (Nitro.ts lines 89–92,
`removeDirtyComponent`, an `indexOf`/`splice` pair). -/
def removeFirst (cid : Nat) : List Nat → List Nat
  | [] => []
  | x :: rest => if x = cid then rest else x :: removeFirst cid rest

/-- Nitro.ts lines 50–62, `componentWasDirtied`: append to `_dirtyComponents`;
in microtask mode queue a microtask only when `_microtaskPending` is false and
set `_digestOnNextMicrotask`; in RAF mode request an animation frame only when
`_pendingRaf === -1`. -/
def componentWasDirtied (w : SWorld) (cid : Nat) : SWorld :=
  let w0 := { w with dirtyList := w.dirtyList ++ [cid] }
  if w0.mode then
    let w1 :=
      if w0.microtaskPending then w0
      else { w0 with queuedMicrotasks := w0.queuedMicrotasks + 1 }
    { w1 with digestOnNextMicrotask := true }
  else
    if w0.pendingRaf then w0
    else { w0 with pendingRaf := true, queuedRafs := w0.queuedRafs + 1 }

/-- Nitro.ts lines 125–130, `Component.setDirty` at world level. -/
def setDirtyW (w : SWorld) (cid : Nat) : SWorld :=
  match getComp w.comps cid with
  | none => w
  | some c =>
    if c.dirty then w
    else componentWasDirtied { w with comps := putComp w.comps { c with dirty := true } } cid

/-- One pass of the `for (const component of _dirtyComponents)` loop of
`rerenderAllDirtyComponents` (Nitro.ts lines 76–79): each entry gets
`getElement()`, which rerenders only when the component is still dirty
(lines 155–160); a throwing render removes the component from
`_dirtyComponents` (line 176) and propagates the exception (`some cid`).
A render here either succeeds or throws (`renderThrows`); renders that dirty
further components mid-pass are outside the scope of the claims settled on
this model, so iterating the pass-start list coincides with the source's live
iteration. -/
def processDirty : SWorld → List Nat → SWorld × Option Nat
  | w, [] => (w, none)
  | w, cid :: rest =>
    match getComp w.comps cid with
    | none => processDirty w rest
    | some c =>
      if c.dirty then
        if c.renderThrows then
          ({ w with dirtyList := removeFirst cid w.dirtyList }, some cid)
        else
          processDirty
            { w with comps := putComp w.comps { c with dirty := false, renderCount := c.renderCount + 1 } }
            rest
      else processDirty w rest

/-- Nitro.ts lines 74–87, `rerenderAllDirtyComponents`: run `getElement()` over
the dirty list; clear `_dirtyComponents` both on success and in the `catch`
block, re-raising the exception (`Option Nat` carries the thrown value). -/
def rerenderAllDirtyComponents (w : SWorld) : SWorld × Option Nat :=
  let w0 := { w with batchRuns := w.batchRuns + 1 }
  match processDirty w0 w0.dirtyList with
  | (w1, ex) => ({ w1 with dirtyList := [] }, ex)

/-- Nitro.ts lines 33–45, `digest`: run the batch immediately; afterwards (only
reached when the batch did not throw, since an exception unwinds out of
`digest`) cancel a pending animation frame, and if `_microtaskPending` is set,
clear `_digestOnNextMicrotask`. -/
def digest (w : SWorld) : SWorld × Option Nat :=
  match rerenderAllDirtyComponents w with
  | (w1, some ex) => (w1, some ex)
  | (w1, none) =>
    let w2 :=
      if w1.pendingRaf then
        { w1 with pendingRaf := false, queuedRafs := w1.queuedRafs - 1 }
      else w1
    let w3 :=
      if w2.microtaskPending then { w2 with digestOnNextMicrotask := false } else w2
    (w3, none)

/-- The browser fires one queued microtask, invoking `queueMicrotaskCallback`
(Nitro.ts lines 64–67): reset `_microtaskPending` and run the batch.  Note the
source handler never consults `_digestOnNextMicrotask`. -/
def queueMicrotaskCallback (w : SWorld) : SWorld × Option Nat :=
  rerenderAllDirtyComponents
    { w with queuedMicrotasks := w.queuedMicrotasks - 1, microtaskPending := false }

/-- The browser fires the outstanding animation frame, invoking
`requestAnimationFrameCallback` (Nitro.ts lines 69–72): reset `_pendingRaf`
and run the batch. -/
def requestAnimationFrameCallback (w : SWorld) : SWorld × Option Nat :=
  rerenderAllDirtyComponents
    { w with queuedRafs := w.queuedRafs - 1, pendingRaf := false }

/-! ## Renderer component matching (Nitro.ts lines 400–443)

JavaScript classes become `CompClass` records: `id` is the identity of the
concrete class, `ancestry` lists the identities of its strict superclasses, and
`name` is `constructor.name`.  A previous-pass child component (`RComp`)
carries its instance identity `iid`, its concrete class, and its `key`
(`string | null`). -/

structure CompClass where
  id : Nat
  ancestry : List Nat
  name : String
deriving DecidableEq

structure RComp where
  iid : Nat
  cls : CompClass
  key : Option String
deriving DecidableEq

/-- Model of `previousComponent instanceof requestedClass`: the requested
class is the concrete class of the instance or one of its superclasses. -/
def isInstanceOfClass (c : CompClass) (req : CompClass) : Bool :=
  (c.id :: c.ancestry).contains req.id

/-- Error message of Nitro.ts line 410. -/
def keyClassMismatchMsg (cur new : String) : String :=
  "Cannot reuse key for a component of a different class, current: " ++ cur ++ ", new: " ++ new ++ "."

/-- First previous-pass component whose `key` equals the requested key,
together with the list with that entry spliced out (the keyed `for` loop of
Nitro.ts lines 406–416). -/
def findKeyedComp (k : String) : List RComp → Option (RComp × List RComp)
  | [] => none
  | c :: rest =>
    if c.key = some k then some (c, rest)
    else
      match findKeyedComp k rest with
      | some (m, rest2) => some (m, c :: rest2)
      | none => none

/-- First previous-pass component with no key that is an instance of the
requested class, spliced out (the fallback `for` loop of Nitro.ts
lines 421–428). -/
def findUnkeyedComp (req : CompClass) : List RComp → Option (RComp × List RComp)
  | [] => none
  | c :: rest =>
    if c.key = none ∧ isInstanceOfClass c.cls req then some (c, rest)
    else
      match findUnkeyedComp req rest with
      | some (m, rest2) => some (m, c :: rest2)
      | none => none

/-- Outcome of the matching phase of `Renderer.create` for a component class:
either a previous-pass instance is reused or a new one is constructed. -/
inductive CreateMatch where
  | reused (c : RComp)
  | fresh
deriving DecidableEq

/-- The unkeyed fallback and construction steps of `Renderer.create`
(Nitro.ts lines 419–434). -/
def createComponentUnkeyed (req : CompClass) (prev : List RComp) :
    Except String (CreateMatch × List RComp) :=
  match findUnkeyedComp req prev with
  | some (m, rest) => Except.ok (CreateMatch.reused m, rest)
  | none => Except.ok (CreateMatch.fresh, prev)

/-- Matching phase of `Renderer.create` when given a component class
(Nitro.ts lines 400–434, with `DEBUG_MODE = true`): when a string key is
requested, the first previous-pass component with that key is taken; a keyed
match that is not an `instanceof` the requested class is a fatal error
(lines 409–411); otherwise it is consumed and reused.  With no key, or no
keyed match, the first unkeyed previous-pass component that is an `instanceof`
the requested class is consumed and reused; else a new instance is
constructed (line 433).  (The subsequent `setInput`/`key`/push/`getElement`
steps of lines 436–442 are outside this claim's scope.) -/
def createComponentMatch (req : CompClass) (key : Option String) (prev : List RComp) :
    Except String (CreateMatch × List RComp) :=
  match key with
  | some k =>
    match findKeyedComp k prev with
    | some (m, rest) =>
      if isInstanceOfClass m.cls req then Except.ok (CreateMatch.reused m, rest)
      else Except.error (keyClassMismatchMsg m.cls.name req.name)
    | none => createComponentUnkeyed req prev
  | none => createComponentUnkeyed req prev

/-! ## `Renderer.create` props/children prelude (Nitro.ts lines 310–321)

Caller-visible object mutation is modelled with an explicit heap: a props
object lives at a `Nat` reference, and `inputOrProperties` is an optional
reference (`none` is the JavaScript `null` argument).  Children values are
opaque `Nat` atoms. -/

structure PropsObj where
  key : Option String
  childrenField : Option (List Nat)
  fields : List (String × Nat)
deriving DecidableEq

abbrev Heap := List PropsObj

/-- Heap read (dereference). -/
def heapGet : Heap → Nat → Option PropsObj
  | [], _ => none
  | o :: rest, r => match r with
    | 0 => some o
    | Nat.succ r2 => heapGet rest r2

/-- Heap write at an existing reference. -/
def heapPut : Heap → Nat → PropsObj → Heap
  | [], _, _ => []
  | o :: rest, r, v => match r with
    | 0 => v :: rest
    | Nat.succ r2 => o :: heapPut rest r2 v

/-- Observable steps performed by the opening lines of `Renderer.create`,
followed by the branch-specific consumption of the props object. -/
inductive CreateStep where
  | readKey (k : Option String)
  | assignChildrenInPlace (r : Nat)
  | allocChildrenObject (r : Nat)
  | applyAttributesFrom (r : Option Nat)
  | setInputWith (r : Option Nat)
deriving DecidableEq

/-- Nitro.ts lines 310–321: resolve `key` from the props object (line 312);
then, when at least one child argument was given, either substitute a fresh
`{ children }` object for a `null` props argument (line 316) or assign the
children array onto the caller's object in place (line 319). -/
def createPropsPrelude (h : Heap) (props : Option Nat) (children : List Nat) :
    Heap × Option Nat × List CreateStep :=
  let key :=
    match props with
    | none => none
    | some r => match heapGet h r with
      | some o => o.key
      | none => none
  let keyStep := CreateStep.readKey key
  if 0 < children.length then
    match props with
    | none =>
      (h ++ [⟨none, some children, []⟩], some h.length,
        [keyStep, CreateStep.allocChildrenObject h.length])
    | some r =>
      match heapGet h r with
      | some o =>
        (heapPut h r { o with childrenField := some children }, some r,
          [keyStep, CreateStep.assignChildrenInPlace r])
      | none => (h, some r, [keyStep])
  else (h, props, [keyStep])

/-- `Renderer.create` as it consumes the props object: after the prelude, the
element branch applies the object's properties as attributes (Nitro.ts
lines 339, 353, 363–370 read `inputOrProperties`), while the component branch
passes the very same object to `component.setInput(inputOrProperties)`
(line 436).  `componentBranch` selects which branch runs. -/
def createPropsFlow (componentBranch : Bool) (h : Heap) (props : Option Nat)
    (children : List Nat) : Heap × Option Nat × List CreateStep :=
  match createPropsPrelude h props children with
  | (h1, r1, steps) =>
    (h1, r1, steps ++
      [if componentBranch then CreateStep.setInputWith r1
       else CreateStep.applyAttributesFrom r1])

/-! ## `Component.rerender` and the root-element invariant
(Nitro.ts lines 155–208)

An element is a record with a reference identity, its DOM `tagName`, and
whether the `__was_mounted`/`__was_unmounted` hooks have been attached to it.
The render function is user code, so its behavior is a parameter
(`RenderOutcome`): it throws, or returns an element, or returns `undefined`. -/

structure RElem where
  rid : Nat
  tagName : String
  handlersAttached : Bool
deriving DecidableEq

structure RenderComp where
  name : String
  element : Option RElem
  dirty : Bool
deriving DecidableEq

inductive RenderOutcome where
  | throws (msg : String)
  | value (rendered : Option RElem)
deriving DecidableEq

/-- Error message of Nitro.ts line 182. -/
def rootSwapMsg (name : String) : String :=
  "Nitro does not support swapping out the root element of a component! Component: "
    ++ name ++ ". You may need to add a key to the root element of the component."

/-- Nitro.ts lines 162–192, `Component.rerender` (with `DEBUG_MODE = true`):
a throwing render removes the component from `_dirtyComponents` and re-raises
(lines 175–178); a returned element different from an existing root removes
the component from `_dirtyComponents` and throws the root-swap error
(lines 180–183), leaving `this.element` untouched; otherwise the element is
adopted when there was none (lines 184–186), mount handlers are attached if
absent (lines 188–190 — reading `__was_mounted` off a still-`null` root is a
JavaScript `TypeError`), and the dirty flag is cleared (line 191).
The result is the updated `_dirtyComponents` list, the component, and the
exception if one was thrown. -/
def rerenderR (dl : List Nat) (cid : Nat) (c : RenderComp) (outcome : RenderOutcome) :
    List Nat × RenderComp × Option String :=
  match outcome with
  | RenderOutcome.throws msg => (removeFirst cid dl, c, some msg)
  | RenderOutcome.value rendered =>
    let swap :=
      match rendered, c.element with
      | some r, some e => decide (r ≠ e)
      | _, _ => false
    if swap then (removeFirst cid dl, c, some (rootSwapMsg c.name))
    else
      let c1 :=
        match rendered, c.element with
        | some r, none => { c with element := some r }
        | _, _ => c
      match c1.element with
      | none => (dl, c1, some "TypeError: Cannot read properties of null")
      | some e =>
        let c2 :=
          if e.handlersAttached then c1
          else { c1 with element := some { e with handlersAttached := true } }
        (dl, { c2 with dirty := false }, none)

/-- Nitro.ts lines 155–160, `Component.getElement`: rerender when dirty,
otherwise leave every part of the state alone. -/
def getElementR (dl : List Nat) (cid : Nat) (c : RenderComp) (outcome : RenderOutcome) :
    List Nat × RenderComp × Option String :=
  if c.dirty then rerenderR dl cid c outcome else (dl, c, none)

/-! ## Child-list tree mutator (Nitro.ts lines 468–558)

DOM nodes become values with `Nat` identities standing for references; an
element records whether the `__was_mounted` / `__was_unmounted` side-record
hooks are present on it, together with its child nodes (text nodes are
childless and carry no hooks).  `document.body.contains(parent)` becomes the
boolean `mounted`.  Hook invocations are collected as an event list. -/

inductive DomNode where
  | text (nid : Nat)
  | elem (nid : Nat) (mountHook unmountHook : Bool) (children : List DomNode)

mutual

/-- Structural equality of node values; with distinct identities this models
JavaScript reference equality (`===`) between DOM nodes. -/
def nodeEq : DomNode → DomNode → Bool
  | DomNode.text a, DomNode.text b => a = b
  | DomNode.elem a amh auh acs, DomNode.elem b bmh buh bcs =>
    a = b && amh = bmh && auh = buh && nodeEqList acs bcs
  | _, _ => false

def nodeEqList : List DomNode → List DomNode → Bool
  | [], [] => true
  | a :: as, b :: bs => nodeEq a b && nodeEqList as bs
  | _, _ => false

end

/-- Model of `children.indexOf(oldChild) === -1` (negated): membership by
reference in the desired-children array. -/
def containsNode (l : List DomNode) (n : DomNode) : Bool :=
  l.any fun x => nodeEq x n

/-- Model of `node instanceof Element`. -/
def isElem : DomNode → Bool
  | DomNode.text _ => false
  | DomNode.elem _ _ _ _ => true

inductive Ev where
  | mounted (nid : Nat)
  | unmounted (nid : Nat)
deriving DecidableEq

mutual

/-- Nitro.ts lines 516–524, `invokeWasMountedForElement`: fire `__was_mounted`
when present, then recurse over the ELEMENT children (`element.children`;
text children are skipped there and contribute nothing here). -/
def mountWalkEvents : DomNode → List Ev
  | DomNode.text _ => []
  | DomNode.elem nid mh _ cs =>
    (if mh then [Ev.mounted nid] else []) ++ mountWalkEventsList cs

def mountWalkEventsList : List DomNode → List Ev
  | [] => []
  | c :: rest => mountWalkEvents c ++ mountWalkEventsList rest

end

mutual

/-- Nitro.ts lines 526–534, `invokeWasUnmountedForElement`: fire
`__was_unmounted` when present, then recurse over the element children. -/
def unmountWalkEvents : DomNode → List Ev
  | DomNode.text _ => []
  | DomNode.elem nid _ uh cs =>
    (if uh then [Ev.unmounted nid] else []) ++ unmountWalkEventsList cs

def unmountWalkEventsList : List DomNode → List Ev
  | [] => []
  | c :: rest => unmountWalkEvents c ++ unmountWalkEventsList rest

end

/-- The lock-step `while` loop of `updateElementChildren` (Nitro.ts
lines 477–503): for each desired child, append it when the actual list is
exhausted (mount walk when the parent is live), skip when identical by
reference, otherwise replace (unmount walk for the old child unless it also
occurs in the full desired list, then mount walk for the new child, both gated
on the parent being live).  Returns the actual children after the loop, the
final `indexIntoCurrentChildren`, and the events fired. -/
def childWalk (mounted : Bool) (fullNews : List DomNode) :
    List DomNode → Nat → List DomNode → List DomNode × Nat × List Ev
  | cur, i, [] => (cur, i, [])
  | cur, i, n :: rest =>
    match cur.get? i with
    | none =>
      let evs := if mounted ∧ isElem n then mountWalkEvents n else []
      match childWalk mounted fullNews (cur ++ [n]) (i + 1) rest with
      | (cur2, i2, evs2) => (cur2, i2, evs ++ evs2)
    | some c =>
      if nodeEq c n then childWalk mounted fullNews cur (i + 1) rest
      else
        let unmountEvs :=
          if mounted ∧ isElem c ∧ ¬ containsNode fullNews c then unmountWalkEvents c else []
        let mountEvs := if mounted ∧ isElem n then mountWalkEvents n else []
        match childWalk mounted fullNews (cur.set i n) (i + 1) rest with
        | (cur2, i2, evs2) => (cur2, i2, unmountEvs ++ mountEvs ++ evs2)

/-- The trailing-removal `while` loop of `updateElementChildren` (Nitro.ts
lines 506–512): `count` times, remove `parent.lastChild` and, when the parent
is live and the removed child is an element, fire its unmount walk. -/
def removeTrailing (mounted : Bool) : Nat → List DomNode → List DomNode × List Ev
  | 0, cur => (cur, [])
  | Nat.succ count, cur =>
    match cur.getLast? with
    | none => (cur, [])
    | some lastChild =>
      let evs := if mounted ∧ isElem lastChild then unmountWalkEvents lastChild else []
      match removeTrailing mounted count cur.dropLast with
      | (cur2, evs2) => (cur2, evs ++ evs2)

/-- Nitro.ts lines 468–514, `updateElementChildren`: run the lock-step walk,
then remove the `currentChildren.length - indexIntoCurrentChildren` leftover
trailing children.  Input is the parent's actual child list plus whether the
parent is attached to the live document; output is the resulting child list
and the fired mount/unmount events in order. -/
def updateElementChildren (mounted : Bool) (cur : List DomNode) (news : List DomNode) :
    List DomNode × List Ev :=
  match childWalk mounted news cur 0 news with
  | (cur1, i1, evs1) =>
    match removeTrailing mounted (cur1.length - i1) cur1 with
    | (cur2, evs2) => (cur2, evs1 ++ evs2)

/-- Nitro.ts lines 550–558, the public `updateChildren`: map each child
component to its root element via `getElement()` and delegate to
`updateElementChildren`.  The model takes the already-mapped element list
(for the empty child list of the claim the map is vacuous). -/
def updateChildren (mounted : Bool) (cur : List DomNode) (children : List DomNode) :
    List DomNode × List Ev :=
  updateElementChildren mounted cur children

/-- Events fired by the trailing-removal loop for a given removal order of
top-level children: each removed child is unmount-walked when the parent is
live and the child is an element. -/
def forestUnmountEvents (mounted : Bool) : List DomNode → List Ev
  | [] => []
  | c :: rest =>
    (if mounted ∧ isElem c then unmountWalkEvents c else []) ++ forestUnmountEvents mounted rest

/-- Identities carried by unmount events. -/
def unmountIds : List Ev → List Nat
  | [] => []
  | Ev.mounted _ :: rest => unmountIds rest
  | Ev.unmounted nid :: rest => nid :: unmountIds rest

/-- The identity carried by an unmount event, if any. -/
def evUnmountId : Ev → Option Nat
  | Ev.mounted _ => none
  | Ev.unmounted nid => some nid

/-! ## General lemmas about the embedded operations -/

theorem isPrefixList_append (b c : List Char) : isPrefixList b (b ++ c) = true := by
  induction b with
  | nil => rfl
  | cons x xs ih => simpa [isPrefixList] using ih

theorem listContainsSublist_of_prefixList (b l : List Char) (h : isPrefixList b l = true) :
    listContainsSublist b l = true := by
  cases l with
  | nil => simpa [listContainsSublist] using h
  | cons x t => simp [listContainsSublist, h]

theorem listContainsSublist_middle (a b c : List Char) :
    listContainsSublist b (a ++ (b ++ c)) = true := by
  induction a with
  | nil => exact listContainsSublist_of_prefixList b (b ++ c) (isPrefixList_append b c)
  | cons x xs ih => simp [listContainsSublist, ih]

theorem strContains_middle (p n s : String) : strContains (p ++ n ++ s) n = true := by
  have hd : (p ++ n ++ s).data = p.data ++ (n.data ++ s.data) := by
    simp [String.data_append]
  simpa [strContains, hd] using listContainsSublist_middle p.data n.data s.data

theorem strContains_rootSwapMsg (name : String) :
    strContains (rootSwapMsg name) name = true :=
  strContains_middle _ name _

theorem getComp_cid (comps : List SComp) (cid : Nat) (c : SComp)
    (h : getComp comps cid = some c) : c.cid = cid := by
  induction comps with
  | nil => simp [getComp] at h
  | cons x rest ih =>
    rw [getComp] at h
    by_cases hx : x.cid = cid
    · rw [if_pos hx] at h
      cases h
      exact hx
    · rw [if_neg hx] at h
      exact ih h

theorem putComp_cons (x : SComp) (rest : List SComp) (c : SComp) :
    putComp (x :: rest) c = (if x.cid = c.cid then c else x) :: putComp rest c := rfl

theorem getComp_putComp_same (comps : List SComp) (c : SComp) (cid : Nat) (h : c.cid = cid) :
    getComp (putComp comps c) cid = (getComp comps cid).map fun _ => c := by
  induction comps with
  | nil => rfl
  | cons x rest ih =>
    by_cases hx : x.cid = cid
    · have hxc : x.cid = c.cid := by rw [hx, h]
      rw [putComp_cons, if_pos hxc, getComp, if_pos h, getComp, if_pos hx]
      rfl
    · have hxc : ¬ x.cid = c.cid := by rw [h]; exact hx
      rw [putComp_cons, if_neg hxc, getComp, if_neg hx, getComp, if_neg hx]
      exact ih

theorem getComp_putComp_ne (comps : List SComp) (c : SComp) (cid : Nat) (h : ¬ c.cid = cid) :
    getComp (putComp comps c) cid = getComp comps cid := by
  induction comps with
  | nil => rfl
  | cons x rest ih =>
    by_cases hxc : x.cid = c.cid
    · have hx : ¬ x.cid = cid := by rw [hxc]; exact h
      rw [putComp_cons, if_pos hxc, getComp, if_neg h, getComp, if_neg hx]
      exact ih
    · rw [putComp_cons, if_neg hxc, getComp, getComp]
      by_cases hx : x.cid = cid
      · rw [if_pos hx, if_pos hx]
      · rw [if_neg hx, if_neg hx]
        exact ih

theorem processDirty_throw (l : List Nat) (w w1 : SWorld) (ex : Nat)
    (h : processDirty w l = (w1, some ex)) :
    getComp w1.comps ex = getComp w.comps ex ∧
    ∃ c, getComp w.comps ex = some c ∧ c.dirty = true ∧ c.renderThrows = true := by
  induction l generalizing w with
  | nil => simp [processDirty] at h
  | cons cid rest ih =>
    cases hg : getComp w.comps cid with
    | none =>
      rw [processDirty, hg] at h
      exact ih w h
    | some c =>
      rw [processDirty, hg] at h
      by_cases hd : c.dirty
      · by_cases ht : c.renderThrows
        · simp [hd, ht] at h
          obtain ⟨hw, he⟩ := h
          subst he
          rw [← hw]
          exact ⟨rfl, c, hg, hd, ht⟩
        · simp [hd, ht] at h
          have hcid : c.cid = cid := getComp_cid w.comps cid c hg
          obtain ⟨h1, cx, h2, h3, h4⟩ := ih _ h
          dsimp only at h1 h2
          by_cases hex : ex = cid
          · subst hex
            rw [getComp_putComp_same w.comps (SComp.mk c.cid false false (c.renderCount + 1)) ex
                (show (SComp.mk c.cid false false (c.renderCount + 1)).cid = ex from hcid),
              hg] at h2
            simp at h2
            subst h2
            simp at h3
          · have hne : ¬ (SComp.mk c.cid false false (c.renderCount + 1)).cid = ex := by
              intro hh
              apply hex
              rw [← hh]
              exact hcid
            rw [getComp_putComp_ne w.comps (SComp.mk c.cid false false (c.renderCount + 1)) ex hne]
              at h1 h2
            exact ⟨h1, cx, h2, h3, h4⟩
      · simp [hd] at h
        exact ih w h

theorem setDirtyB_dirty (c : CompB) : (setDirtyB c).dirty = true := by
  by_cases hd : c.dirty
  · simp [setDirtyB, hd]
  · simp [setDirtyB, hd]

theorem setDirtyB_input (c : CompB) : (setDirtyB c).input = c.input := by
  by_cases hd : c.dirty
  · simp [setDirtyB, hd]
  · simp [setDirtyB, hd]

theorem setDirtyB_calls (c : CompB) : (setDirtyB c).inputChangedCalls = c.inputChangedCalls := by
  by_cases hd : c.dirty
  · simp [setDirtyB, hd]
  · simp [setDirtyB, hd]

theorem setDirtyB_renderCount (c : CompB) : (setDirtyB c).renderCount = c.renderCount := by
  by_cases hd : c.dirty
  · simp [setDirtyB, hd]
  · simp [setDirtyB, hd]

/-! ## Claim theorems -/

/-- C3: for every digest batch in which some component's render function
throws, the dirty set is cleared (the components in it are not retried), the
exception is re-raised to the caller of the batch (`digest` propagates it
unchanged), and the component whose render threw is left exactly as it was
before the batch — in particular its dirty flag is still set, so its render is
treated as not having happened. -/
theorem digestRenderThrowSpec (w w1 : SWorld) (ex : Nat)
    (h : rerenderAllDirtyComponents w = (w1, some ex)) :
    digest w = (w1, some ex) ∧
    w1.dirtyList = [] ∧
    getComp w1.comps ex = getComp w.comps ex ∧
    ∃ c, getComp w.comps ex = some c ∧ c.dirty = true ∧ c.renderThrows = true := by
  have hdig : digest w = (w1, some ex) := by
    rw [digest, h]
  have h2 : (match processDirty { w with batchRuns := w.batchRuns + 1 } w.dirtyList with
      | (w2, ex2) => (({ w2 with dirtyList := [] } : SWorld), ex2)) = (w1, some ex) := h
  cases hp : processDirty { w with batchRuns := w.batchRuns + 1 } w.dirtyList with
  | mk w2 ex2 =>
    rw [hp] at h2
    simp at h2
    obtain ⟨hw, hex2⟩ := h2
    subst hex2
    subst hw
    obtain ⟨pd1, c, pdc⟩ := processDirty_throw w.dirtyList _ w2 ex hp
    exact ⟨hdig, rfl, pd1, c, pdc⟩

/-- Witness for C3 at a concrete world: three dirty components, the second of
which throws; the first renders, the batch stops, the dirty list is cleared,
and the throwing component keeps its dirty flag. -/
theorem digestRenderThrowSpecWitness :
    rerenderAllDirtyComponents
        ⟨[⟨0, true, false, 0⟩, ⟨1, true, true, 0⟩, ⟨2, true, false, 0⟩],
          [0, 1, 2], true, false, false, false, 0, 0, 0⟩ =
      (⟨[⟨0, false, false, 1⟩, ⟨1, true, true, 0⟩, ⟨2, true, false, 0⟩],
          [], true, false, false, false, 0, 0, 1⟩, some 1) ∧
    (digest
        ⟨[⟨0, true, false, 0⟩, ⟨1, true, true, 0⟩, ⟨2, true, false, 0⟩],
          [0, 1, 2], true, false, false, false, 0, 0, 0⟩ =
      (⟨[⟨0, false, false, 1⟩, ⟨1, true, true, 0⟩, ⟨2, true, false, 0⟩],
          [], true, false, false, false, 0, 0, 1⟩, some 1) ∧
    (⟨[⟨0, false, false, 1⟩, ⟨1, true, true, 0⟩, ⟨2, true, false, 0⟩],
          [], true, false, false, false, 0, 0, 1⟩ : SWorld).dirtyList = [] ∧
    getComp (⟨[⟨0, false, false, 1⟩, ⟨1, true, true, 0⟩, ⟨2, true, false, 0⟩],
          [], true, false, false, false, 0, 0, 1⟩ : SWorld).comps 1 =
      getComp (⟨[⟨0, true, false, 0⟩, ⟨1, true, true, 0⟩, ⟨2, true, false, 0⟩],
          [0, 1, 2], true, false, false, false, 0, 0, 0⟩ : SWorld).comps 1 ∧
    ∃ c, getComp (⟨[⟨0, true, false, 0⟩, ⟨1, true, true, 0⟩, ⟨2, true, false, 0⟩],
          [0, 1, 2], true, false, false, false, 0, 0, 0⟩ : SWorld).comps 1 = some c ∧
      c.dirty = true ∧ c.renderThrows = true) :=
  ⟨rfl, digestRenderThrowSpec _ _ _ rfl⟩

/-- C4 (divergence demonstration): in microtask mode, after dirtying one
component and forcing `digest()`, the still-pending microtask is NOT cancelled
— `_microtaskPending` is never set, so `digest`'s cancel branch does nothing
and `_digestOnNextMicrotask` stays `true` (it is never read anyway) — and when
the queued microtask fires, `queueMicrotaskCallback` unconditionally runs
`rerenderAllDirtyComponents` a second time (`batchRuns` reaches 2).  The dirty
list is empty by then, so the component itself still renders exactly once. -/
theorem digestMicrotaskSecondBatchRun :
    (digest (setDirtyW ⟨[⟨0, false, false, 0⟩], [], true, false, false, false, 0, 0, 0⟩ 0)).2
      = none ∧
    (digest (setDirtyW ⟨[⟨0, false, false, 0⟩], [], true, false, false, false, 0, 0, 0⟩ 0)).1.batchRuns
      = 1 ∧
    (digest (setDirtyW ⟨[⟨0, false, false, 0⟩], [], true, false, false, false, 0, 0, 0⟩ 0)).1.queuedMicrotasks
      = 1 ∧
    (digest (setDirtyW ⟨[⟨0, false, false, 0⟩], [], true, false, false, false, 0, 0, 0⟩ 0)).1.microtaskPending
      = false ∧
    (digest (setDirtyW ⟨[⟨0, false, false, 0⟩], [], true, false, false, false, 0, 0, 0⟩ 0)).1.digestOnNextMicrotask
      = true ∧
    (queueMicrotaskCallback
        (digest (setDirtyW ⟨[⟨0, false, false, 0⟩], [], true, false, false, false, 0, 0, 0⟩ 0)).1).1.batchRuns
      = 2 ∧
    getComp (queueMicrotaskCallback
        (digest (setDirtyW ⟨[⟨0, false, false, 0⟩], [], true, false, false, false, 0, 0, 0⟩ 0)).1).1.comps 0
      = some ⟨0, false, false, 1⟩ := by
  exact ⟨rfl, rfl, rfl, rfl, rfl, rfl, rfl⟩

/-- C5 (divergence demonstration): `_microtaskPending` is never set to `true`
(Nitro.ts assigns it only `false`, lines 23 and 65), so in microtask mode
every `componentWasDirtied` queues a fresh microtask: dirtying two components
in one synchronous turn leaves TWO queued microtask callbacks.  In
animation-frame mode `_pendingRaf` is tracked, and the same two dirtyings
schedule exactly one callback. -/
theorem dirtyTwiceSchedulesTwoMicrotasks :
    (setDirtyW (setDirtyW
        ⟨[⟨0, false, false, 0⟩, ⟨1, false, false, 0⟩], [], true, false, false, false, 0, 0, 0⟩ 0) 1).queuedMicrotasks
      = 2 ∧
    (setDirtyW (setDirtyW
        ⟨[⟨0, false, false, 0⟩, ⟨1, false, false, 0⟩], [], true, false, false, false, 0, 0, 0⟩ 0) 1).microtaskPending
      = false ∧
    (setDirtyW (setDirtyW
        ⟨[⟨0, false, false, 0⟩, ⟨1, false, false, 0⟩], [], true, false, false, false, 0, 0, 0⟩ 0) 1).dirtyList
      = [0, 1] ∧
    (setDirtyW (setDirtyW
        ⟨[⟨0, false, false, 0⟩, ⟨1, false, false, 0⟩], [], false, false, false, false, 0, 0, 0⟩ 0) 1).queuedRafs
      = 1 ∧
    (setDirtyW (setDirtyW
        ⟨[⟨0, false, false, 0⟩, ⟨1, false, false, 0⟩], [], false, false, false, false, 0, 0, 0⟩ 0) 1).pendingRaf
      = true ∧
    (setDirtyW (setDirtyW
        ⟨[⟨0, false, false, 0⟩, ⟨1, false, false, 0⟩], [], false, false, false, false, 0, 0, 0⟩ 0) 1).dirtyList
      = [0, 1] := by
  exact ⟨rfl, rfl, rfl, rfl, rfl, rfl⟩

/-- C7 (amended): `Component.setInput` unconditionally marks the component
dirty; unless previous and new input are both `null` it replaces the stored
input and records an `inputChanged(previous, new)` invocation, and in the
execution trace the assignment to `this.input` comes BEFORE the
`inputChanged` call (so the notification observes the new stored value); when
both are `null` the notification is skipped entirely. -/
theorem componentSetInputSpec (c : CompB) (input : Input) :
    (componentSetInput c input).dirty = true ∧
    (¬ (c.input = Input.null ∧ input = Input.null) →
      (componentSetInput c input).input = input ∧
      (componentSetInput c input).inputChangedCalls
        = c.inputChangedCalls ++ [(c.input, input)] ∧
      componentSetInputTrace c.input input =
        [SetInputStep.assignInput input, SetInputStep.invokeInputChanged c.input input,
          SetInputStep.invokeSetDirty]) ∧
    (c.input = Input.null → input = Input.null →
      componentSetInput c input = setDirtyB c ∧
      componentSetInputTrace c.input input = [SetInputStep.invokeSetDirty]) := by
  by_cases hp : c.input = Input.null
  · by_cases hi : input = Input.null
    · refine ⟨?_, fun hcontra => absurd ⟨hp, hi⟩ hcontra, fun _ _ => ⟨?_, ?_⟩⟩
      · simp [componentSetInput, hp, hi, setDirtyB_dirty]
      · simp [componentSetInput, hp, hi]
      · simp [componentSetInputTrace, hp, hi]
    · refine ⟨?_, fun _ => ⟨?_, ?_, ?_⟩, fun _ hi2 => absurd hi2 hi⟩
      · simp [componentSetInput, hi, setDirtyB_dirty]
      · simp [componentSetInput, hi, setDirtyB_input]
      · simp [componentSetInput, hi, setDirtyB_calls]
      · simp [componentSetInputTrace, hi]
  · refine ⟨?_, fun _ => ⟨?_, ?_, ?_⟩, fun hp2 _ => absurd hp2 hp⟩
    · simp [componentSetInput, hp, setDirtyB_dirty]
    · simp [componentSetInput, hp, setDirtyB_input]
    · simp [componentSetInput, hp, setDirtyB_calls]
    · simp [componentSetInputTrace, hp]

/-- Witness for C7 at a concrete component: previous input `prim 0`, new input
`prim 1`. -/
theorem componentSetInputSpecWitness :
    ¬ ((Input.prim 0) = Input.null ∧ (Input.prim 1) = Input.null) ∧
    (componentSetInput ⟨Input.prim 0, false, [], 0, 0⟩ (Input.prim 1)).dirty = true ∧
    (componentSetInput ⟨Input.prim 0, false, [], 0, 0⟩ (Input.prim 1)).input = Input.prim 1 ∧
    (componentSetInput ⟨Input.prim 0, false, [], 0, 0⟩ (Input.prim 1)).inputChangedCalls
      = [(Input.prim 0, Input.prim 1)] ∧
    componentSetInputTrace (Input.prim 0) (Input.prim 1) =
      [SetInputStep.assignInput (Input.prim 1),
        SetInputStep.invokeInputChanged (Input.prim 0) (Input.prim 1),
        SetInputStep.invokeSetDirty] := by
  have h := componentSetInputSpec ⟨Input.prim 0, false, [], 0, 0⟩ (Input.prim 1)
  have h2 := h.2.1 (by simp)
  exact ⟨by simp, h.1, h2.1, h2.2.1, h2.2.2⟩

/-- C7 counterexample to the claimed ordering: at previous input `prim 0` and
new input `prim 1`, the trace of `Component.setInput` performs the assignment
to `this.input` at position 0 and the `inputChanged` notification at
position 1 — the notification is invoked AFTER the stored input is updated,
not before. -/
theorem componentSetInputOrderCounterexample :
    componentSetInputTrace (Input.prim 0) (Input.prim 1) =
      [SetInputStep.assignInput (Input.prim 1),
        SetInputStep.invokeInputChanged (Input.prim 0) (Input.prim 1),
        SetInputStep.invokeSetDirty] ∧
    (componentSetInputTrace (Input.prim 0) (Input.prim 1)).indexOf
        (SetInputStep.assignInput (Input.prim 1)) = 0 ∧
    (componentSetInputTrace (Input.prim 0) (Input.prim 1)).indexOf
        (SetInputStep.invokeInputChanged (Input.prim 0) (Input.prim 1)) = 1 := by
  exact ⟨by decide, by decide, by decide⟩

/-- C10: on a `PureComponent` whose stored input is a non-null object,
`setInput(null)` is silently a no-op: `typeof null === 'object'` passes the
debug check, the `for (const key in null)` loop runs zero iterations, so no
update, no `inputChanged`, no dirtying, and no usage error. -/
theorem pureSetInputNullOnObjectSpec (c : CompB) (fs : List (String × Nat))
    (hc : c.input = Input.obj fs) :
    pureSetInput c Input.null = Except.ok c := by
  simp [pureSetInput, jsTypeofIsObject, hc, inputFields]

/-- Witness for C10 at a concrete component with stored input
`{ x: 3 }`. -/
theorem pureSetInputNullOnObjectSpecWitness :
    (⟨Input.obj [("x", 3)], false, [], 0, 0⟩ : CompB).input = Input.obj [("x", 3)] ∧
    pureSetInput ⟨Input.obj [("x", 3)], false, [], 0, 0⟩ Input.null =
      Except.ok ⟨Input.obj [("x", 3)], false, [], 0, 0⟩ :=
  ⟨rfl, pureSetInputNullOnObjectSpec _ _ rfl⟩

/-- Evaluation of `PureComponent.setInput` on an object input over an object
previous input: the debug type check passes, the previous input is not `null`,
so the outcome is decided by the per-field comparison loop over the NEW
input's fields. -/
theorem pureSetInput_obj_eval (c : CompB) (prevFields newFields : List (String × Nat))
    (hc : c.input = Input.obj prevFields) :
    pureSetInput c (Input.obj newFields) =
      if (newFields.any fun kv =>
          decide (¬ jsLookup (Input.obj prevFields) kv.fst = some kv.snd)) = true then
        Except.ok (setDirtyB
          { c with input := Input.obj newFields,
                   inputChangedCalls := c.inputChangedCalls
                     ++ [(Input.obj prevFields, Input.obj newFields)] })
      else Except.ok c := by
  rw [pureSetInput]
  rw [if_neg (by simp [jsTypeofIsObject])]
  simp only [hc, inputFields]
  rw [if_neg (show ¬ (Input.obj prevFields = Input.null) by simp)]

/-- C2 (amended): on a `PureComponent` whose stored input is an object,
`setInput` with an object input detects change only over the fields of the
NEW input: if some field of the new input differs from the previous input's
corresponding field, the stored input is replaced, one
`inputChanged(previous, new)` invocation is recorded, and the component is
marked dirty; if every field of the new input equals the previous input's
corresponding field, the call is a complete no-op (no update, no
notification, no dirtying — and on a clean component a subsequent
`getElement()` does not run the render function).  In particular a field
present in the previous input but absent from the new one does not, by
itself, trigger an update. -/
theorem pureSetInputFieldwiseSpec (c : CompB) (prevFields newFields : List (String × Nat))
    (hc : c.input = Input.obj prevFields) :
    ((∀ kv ∈ newFields, jsLookup (Input.obj prevFields) kv.fst = some kv.snd) →
      pureSetInput c (Input.obj newFields) = Except.ok c ∧
      (c.dirty = false → (getElementB c).renderCount = c.renderCount)) ∧
    ((∃ kv ∈ newFields, ¬ jsLookup (Input.obj prevFields) kv.fst = some kv.snd) →
      ∃ c2, pureSetInput c (Input.obj newFields) = Except.ok c2 ∧
        c2.input = Input.obj newFields ∧
        c2.inputChangedCalls
          = c.inputChangedCalls ++ [(Input.obj prevFields, Input.obj newFields)] ∧
        c2.dirty = true) := by
  constructor
  · intro hall
    have hany : (newFields.any fun kv =>
        decide (¬ jsLookup (Input.obj prevFields) kv.fst = some kv.snd)) = false := by
      rw [List.any_eq_false]
      intro kv hkv
      simp [hall kv hkv]
    constructor
    · rw [pureSetInput_obj_eval c prevFields newFields hc,
        if_neg (show ¬ _ = true by rw [hany]; simp)]
    · intro hcl
      simp [getElementB, hcl]
  · intro hex
    have hany : (newFields.any fun kv =>
        decide (¬ jsLookup (Input.obj prevFields) kv.fst = some kv.snd)) = true := by
      rw [List.any_eq_true]
      obtain ⟨kv, hkv, hne⟩ := hex
      exact ⟨kv, hkv, decide_eq_true hne⟩
    refine ⟨setDirtyB
      { c with input := Input.obj newFields,
               inputChangedCalls := c.inputChangedCalls
                 ++ [(Input.obj prevFields, Input.obj newFields)] }, ?_, ?_, ?_, ?_⟩
    · rw [pureSetInput_obj_eval c prevFields newFields hc, if_pos hany]
    · rw [setDirtyB_input]
    · rw [setDirtyB_calls]
    · exact setDirtyB_dirty _

/-- Witness for C2 at a concrete pure component: stored input `{ a: 0 }`, new
input `{ a: 5 }` differs in field `a`, so the input is replaced, one
notification recorded, and the component dirtied. -/
theorem pureSetInputFieldwiseSpecWitness :
    (⟨Input.obj [("a", 0)], false, [], 0, 0⟩ : CompB).input = Input.obj [("a", 0)] ∧
    (∃ kv ∈ [("a", 5)], ¬ jsLookup (Input.obj [("a", 0)]) kv.fst = some kv.snd) ∧
    ∃ c2, pureSetInput ⟨Input.obj [("a", 0)], false, [], 0, 0⟩ (Input.obj [("a", 5)])
        = Except.ok c2 ∧
      c2.input = Input.obj [("a", 5)] ∧
      c2.inputChangedCalls = [] ++ [(Input.obj [("a", 0)], Input.obj [("a", 5)])] ∧
      c2.dirty = true := by
  refine ⟨rfl, by decide, ?_⟩
  exact (pureSetInputFieldwiseSpec ⟨Input.obj [("a", 0)], false, [], 0, 0⟩
    [("a", 0)] [("a", 5)] rfl).2 (by decide)

/-- C2 counterexample to the claim as stated: previous input
`{ a: 0, b: 1 }`, new input `{ a: 0 }` — field `b` was present before and is
absent now, so the inputs differ — yet `PureComponent.setInput` performs no
update, no `inputChanged` call, and no dirtying: the change loop only visits
the fields of the new input. -/
theorem pureSetInputDroppedFieldCounterexample :
    jsLookup (Input.obj [("a", 0), ("b", 1)]) "b" = some 1 ∧
    jsLookup (Input.obj [("a", 0)]) "b" = none ∧
    (Input.obj [("a", 0)] : Input) ≠ Input.obj [("a", 0), ("b", 1)] ∧
    pureSetInput ⟨Input.obj [("a", 0), ("b", 1)], false, [], 0, 0⟩ (Input.obj [("a", 0)]) =
      Except.ok ⟨Input.obj [("a", 0), ("b", 1)], false, [], 0, 0⟩ := by
  exact ⟨rfl, rfl, by decide, rfl⟩

/-- C1 (amended): when a dirty component that already has a root element is
rendered via `getElement()` and the render returns a different element, a
fatal error is thrown whose message names the component (and suggests adding
a key); the component is removed from the dirty list, and its state —
in particular its root element, which is not replaced, and its still-set
dirty flag — is left untouched. -/
theorem rerenderRootSwapSpec (dl : List Nat) (cid : Nat) (c : RenderComp) (e r : RElem)
    (hd : c.dirty = true) (he : c.element = some e) (hne : r ≠ e) :
    getElementR dl cid c (RenderOutcome.value (some r)) =
      (removeFirst cid dl, c, some (rootSwapMsg c.name)) ∧
    strContains (rootSwapMsg c.name) c.name = true := by
  constructor
  · obtain ⟨name, el, dirty⟩ := c
    simp only at he hd
    subst he
    subst hd
    simp [getElementR, rerenderR, hne]
  · exact strContains_rootSwapMsg c.name

/-- Witness for C1 at a concrete component: root `DIV` element, render
returns a fresh `SPAN` element. -/
theorem rerenderRootSwapSpecWitness :
    (⟨"MyWidget", some ⟨0, "DIV", true⟩, true⟩ : RenderComp).dirty = true ∧
    (⟨"MyWidget", some ⟨0, "DIV", true⟩, true⟩ : RenderComp).element = some ⟨0, "DIV", true⟩ ∧
    (⟨1, "SPAN", false⟩ : RElem) ≠ ⟨0, "DIV", true⟩ ∧
    (getElementR [3] 3 ⟨"MyWidget", some ⟨0, "DIV", true⟩, true⟩
        (RenderOutcome.value (some ⟨1, "SPAN", false⟩)) =
      ([], ⟨"MyWidget", some ⟨0, "DIV", true⟩, true⟩, some (rootSwapMsg "MyWidget")) ∧
    strContains (rootSwapMsg "MyWidget") "MyWidget" = true) :=
  ⟨rfl, rfl, by decide,
    rerenderRootSwapSpec [3] 3 ⟨"MyWidget", some ⟨0, "DIV", true⟩, true⟩
      ⟨0, "DIV", true⟩ ⟨1, "SPAN", false⟩ rfl rfl (by decide)⟩

/-- C1 counterexample to the claim as stated: in the `div`→`span` root-swap
scenario the thrown message names the component but does NOT contain either
tag name (neither `DIV`/`SPAN` nor `div`/`span` occurs in it), and the root
element is kept. -/
theorem rerenderRootSwapMsgCounterexample :
    getElementR [3] 3 ⟨"MyWidget", some ⟨0, "DIV", true⟩, true⟩
        (RenderOutcome.value (some ⟨1, "SPAN", false⟩)) =
      ([], ⟨"MyWidget", some ⟨0, "DIV", true⟩, true⟩, some (rootSwapMsg "MyWidget")) ∧
    strContains (rootSwapMsg "MyWidget") "DIV" = false ∧
    strContains (rootSwapMsg "MyWidget") "SPAN" = false ∧
    strContains (rootSwapMsg "MyWidget") "div" = false ∧
    strContains (rootSwapMsg "MyWidget") "span" = false ∧
    strContains (rootSwapMsg "MyWidget") "MyWidget" = true := by
  exact ⟨by rfl, by decide, by decide, by decide, by decide, by decide⟩

theorem findKeyedComp_first (k : String) (pre : List RComp) (m : RComp) (post : List RComp)
    (hpre : ∀ x ∈ pre, x.key ≠ some k) (hm : m.key = some k) :
    findKeyedComp k (pre ++ m :: post) = some (m, pre ++ post) := by
  induction pre with
  | nil => simp [findKeyedComp, hm]
  | cons x rest ih =>
    have hx : ¬ x.key = some k := hpre x (by simp)
    have ih2 := ih fun y hy => hpre y (by simp [hy])
    simp [findKeyedComp, hx, ih2]

theorem findKeyedComp_none (k : String) (prev : List RComp)
    (h : ∀ x ∈ prev, x.key ≠ some k) :
    findKeyedComp k prev = none := by
  induction prev with
  | nil => rfl
  | cons x rest ih =>
    have hx : ¬ x.key = some k := h x (by simp)
    have ih2 := ih fun y hy => h y (by simp [hy])
    simp [findKeyedComp, hx, ih2]

theorem findUnkeyedComp_first (req : CompClass) (pre : List RComp) (m : RComp)
    (post : List RComp)
    (hpre : ∀ x ∈ pre, ¬ (x.key = none ∧ isInstanceOfClass x.cls req = true))
    (hm : m.key = none) (hinst : isInstanceOfClass m.cls req = true) :
    findUnkeyedComp req (pre ++ m :: post) = some (m, pre ++ post) := by
  induction pre with
  | nil => simp [findUnkeyedComp, hm, hinst]
  | cons x rest ih =>
    have hx := hpre x (by simp)
    have ih2 := ih fun y hy => hpre y (by simp [hy])
    simp [findUnkeyedComp, hx, ih2]

theorem findUnkeyedComp_none (req : CompClass) (prev : List RComp)
    (h : ∀ x ∈ prev, ¬ (x.key = none ∧ isInstanceOfClass x.cls req = true)) :
    findUnkeyedComp req prev = none := by
  induction prev with
  | nil => rfl
  | cons x rest ih =>
    have hx := h x (by simp)
    have ih2 := ih fun y hy => h y (by simp [hy])
    simp [findUnkeyedComp, hx, ih2]

/-- C6 (amended): `Renderer.create` given a component class matches previous-
pass components with `instanceof`, not exact type identity.  With a requested
key, the first previous-pass component bearing that key is consumed and
reused whenever it is an `instanceof` the requested class — even when its
concrete class is a strict subclass, i.e. differs from the requested one —
and the keyed match is a fatal error (naming both class names) only when it
is NOT an instance of the requested class.  When no key is given, or no
previous component carries the key, the first previous component with no key
that is an `instanceof` the requested class is consumed and reused; if none
exists, a new instance is constructed. -/
theorem createComponentMatchSpec (req : CompClass) (k : String)
    (pre : List RComp) (m : RComp) (post : List RComp)
    (hpre : ∀ x ∈ pre, x.key ≠ some k) (hm : m.key = some k) :
    (isInstanceOfClass m.cls req = true →
      createComponentMatch req (some k) (pre ++ m :: post) =
        Except.ok (CreateMatch.reused m, pre ++ post)) ∧
    (isInstanceOfClass m.cls req = false →
      createComponentMatch req (some k) (pre ++ m :: post) =
        Except.error (keyClassMismatchMsg m.cls.name req.name)) ∧
    (∀ prev : List RComp, (∀ x ∈ prev, x.key ≠ some k) →
      createComponentMatch req (some k) prev = createComponentUnkeyed req prev) ∧
    (∀ prev : List RComp, createComponentMatch req none prev = createComponentUnkeyed req prev) ∧
    (∀ (pre2 : List RComp) (m2 : RComp) (post2 : List RComp),
      (∀ x ∈ pre2, ¬ (x.key = none ∧ isInstanceOfClass x.cls req = true)) →
      m2.key = none → isInstanceOfClass m2.cls req = true →
      createComponentUnkeyed req (pre2 ++ m2 :: post2) =
        Except.ok (CreateMatch.reused m2, pre2 ++ post2)) ∧
    (∀ prev : List RComp, (∀ x ∈ prev, ¬ (x.key = none ∧ isInstanceOfClass x.cls req = true)) →
      createComponentUnkeyed req prev = Except.ok (CreateMatch.fresh, prev)) := by
  refine ⟨?_, ?_, ?_, fun _ => rfl, ?_, ?_⟩
  · intro hinst
    rw [createComponentMatch, findKeyedComp_first k pre m post hpre hm]
    simp [hinst]
  · intro hinst
    rw [createComponentMatch, findKeyedComp_first k pre m post hpre hm]
    simp [hinst]
  · intro prev hnone
    rw [createComponentMatch, findKeyedComp_none k prev hnone]
  · intro pre2 m2 post2 hpre2 hm2 hinst2
    rw [createComponentUnkeyed, findUnkeyedComp_first req pre2 m2 post2 hpre2 hm2 hinst2]
  · intro prev hnone
    rw [createComponentUnkeyed, findUnkeyedComp_none req prev hnone]

/-- Witness for C6: previous pass holds a keyed instance of class `Sub`
(subclass of `Base`); requesting `Base` with the same key reuses it, while a
keyed instance of an unrelated class `Other` under a request for `Sub` is a
fatal error naming both classes. -/
theorem createComponentMatchSpecWitness :
    (∀ x ∈ ([] : List RComp), x.key ≠ some "k") ∧
    (⟨7, ⟨1, [0], "Sub"⟩, some "k"⟩ : RComp).key = some "k" ∧
    (isInstanceOfClass (⟨1, [0], "Sub"⟩ : CompClass) ⟨0, [], "Base"⟩ = true →
      createComponentMatch ⟨0, [], "Base"⟩ (some "k")
          ([] ++ ⟨7, ⟨1, [0], "Sub"⟩, some "k"⟩ :: []) =
        Except.ok (CreateMatch.reused ⟨7, ⟨1, [0], "Sub"⟩, some "k"⟩, [] ++ [])) ∧
    isInstanceOfClass (⟨1, [0], "Sub"⟩ : CompClass) ⟨0, [], "Base"⟩ = true :=
  ⟨fun x hx => absurd hx (List.not_mem_nil x),
    rfl,
    (createComponentMatchSpec ⟨0, [], "Base"⟩ "k" [] ⟨7, ⟨1, [0], "Sub"⟩, some "k"⟩ []
      (fun x hx => absurd hx (List.not_mem_nil x)) rfl).1,
    by decide⟩

/-- C6 counterexample to the claim as stated: the previous-pass component has
key `"k"` and concrete class `Sub` (id 1), the request is for class `Base`
(id 0) with the same key — the concrete type differs from the requested type,
yet no fatal error is raised: the `instanceof` check passes and the `Sub`
instance is reused. -/
theorem createComponentMatchSubclassCounterexample :
    createComponentMatch ⟨0, [], "Base"⟩ (some "k") [⟨7, ⟨1, [0], "Sub"⟩, some "k"⟩] =
      Except.ok (CreateMatch.reused ⟨7, ⟨1, [0], "Sub"⟩, some "k"⟩, []) ∧
    (⟨1, [0], "Sub"⟩ : CompClass).id ≠ (⟨0, [], "Base"⟩ : CompClass).id := by
  exact ⟨rfl, by decide⟩

theorem heapGet_heapPut (h : Heap) (r : Nat) (o v : PropsObj)
    (hr : heapGet h r = some o) :
    heapGet (heapPut h r v) r = some v := by
  induction h generalizing r with
  | nil => simp [heapGet] at hr
  | cons x rest ih =>
    cases r with
    | zero => rfl
    | succ r2 =>
      have hr2 : heapGet rest r2 = some o := hr
      exact ih r2 hr2

/-- C9: when `Renderer.create` is given one or more children and a non-null
props/input object, the caller's object is mutated in place — the children
array is assigned onto its `children` field, every other part of the object
is kept, and the reference flowing onward is the very same one — and this
happens BEFORE the element branch applies attributes or the component branch
passes the object to `setInput`.  When the props argument is `null`, a fresh
`{ children }` object is substituted instead. -/
theorem createPropsFlowSpec (branch : Bool) (h : Heap) (r : Nat) (o : PropsObj)
    (children : List Nat) (ho : heapGet h r = some o) (hc : 0 < children.length) :
    createPropsFlow branch h (some r) children =
      (heapPut h r { o with childrenField := some children }, some r,
        [CreateStep.readKey o.key, CreateStep.assignChildrenInPlace r,
          if branch then CreateStep.setInputWith (some r)
          else CreateStep.applyAttributesFrom (some r)]) ∧
    heapGet (heapPut h r { o with childrenField := some children }) r =
      some { o with childrenField := some children } ∧
    createPropsFlow branch h none children =
      (h ++ [⟨none, some children, []⟩], some h.length,
        [CreateStep.readKey none, CreateStep.allocChildrenObject h.length,
          if branch then CreateStep.setInputWith (some h.length)
          else CreateStep.applyAttributesFrom (some h.length)]) := by
  refine ⟨?_, heapGet_heapPut h r o _ ho, ?_⟩
  · rw [createPropsFlow, createPropsPrelude]
    simp [ho, hc]
  · rw [createPropsFlow, createPropsPrelude]
    simp [hc]

/-- Witness for C9 at a concrete heap: one props object `{ key: "kk", x: 9 }`
at reference 0, two children; the object keeps its key and fields and gains
`children`, in place, before the consuming step. -/
theorem createPropsFlowSpecWitness :
    heapGet [⟨some "kk", none, [("x", 9)]⟩] 0 = some ⟨some "kk", none, [("x", 9)]⟩ ∧
    0 < [11, 12].length ∧
    createPropsFlow true [⟨some "kk", none, [("x", 9)]⟩] (some 0) [11, 12] =
      (heapPut [⟨some "kk", none, [("x", 9)]⟩] 0 ⟨some "kk", some [11, 12], [("x", 9)]⟩,
        some 0,
        [CreateStep.readKey (some "kk"), CreateStep.assignChildrenInPlace 0,
          if true then CreateStep.setInputWith (some 0)
          else CreateStep.applyAttributesFrom (some 0)]) ∧
    heapGet (heapPut [⟨some "kk", none, [("x", 9)]⟩] 0 ⟨some "kk", some [11, 12], [("x", 9)]⟩) 0 =
      some ⟨some "kk", some [11, 12], [("x", 9)]⟩ := by
  have hspec := createPropsFlowSpec true [⟨some "kk", none, [("x", 9)]⟩] 0
    ⟨some "kk", none, [("x", 9)]⟩ [11, 12] rfl (by decide)
  exact ⟨rfl, by decide, hspec.1, hspec.2.1⟩

theorem forestUnmountEvents_append (m : Bool) (a b : List DomNode) :
    forestUnmountEvents m (a ++ b) = forestUnmountEvents m a ++ forestUnmountEvents m b := by
  induction a with
  | nil => rfl
  | cons c rest ih => simp [forestUnmountEvents, ih]

theorem removeTrailing_length (m : Bool) (cs : List DomNode) :
    removeTrailing m cs.length cs = ([], forestUnmountEvents m cs.reverse) := by
  induction cs using List.reverseRecOn with
  | nil => rfl
  | append_singleton l a ih =>
    have h1 : (l ++ [a]).length = Nat.succ l.length := by simp
    rw [h1, removeTrailing, List.getLast?_concat]
    simp [List.dropLast_concat, ih, forestUnmountEvents_append, forestUnmountEvents]

theorem forestUnmountEvents_reverse_perm (m : Bool) (l : List DomNode) :
    (forestUnmountEvents m l.reverse).Perm (forestUnmountEvents m l) := by
  induction l with
  | nil => exact List.Perm.refl _
  | cons c t ih =>
    rw [List.reverse_cons]
    rw [show (t.reverse ++ [c] : List DomNode) = t.reverse ++ [c] from rfl]
    rw [forestUnmountEvents_append]
    have hsingle : forestUnmountEvents m [c]
        = (if m ∧ isElem c then unmountWalkEvents c else []) := by
      simp [forestUnmountEvents]
    rw [hsingle, forestUnmountEvents]
    exact (List.perm_append_comm).trans (List.Perm.append_left _ ih)

theorem unmountIds_eq_filterMap (l : List Ev) : unmountIds l = l.filterMap evUnmountId := by
  induction l with
  | nil => rfl
  | cons e rest ih =>
    cases e with
    | mounted nid => simp [unmountIds, evUnmountId, ih]
    | unmounted nid => simp [unmountIds, evUnmountId, ih]

theorem unmountIds_reverse_nodup (cs : List DomNode)
    (h : (unmountIds (forestUnmountEvents true cs)).Nodup) :
    (unmountIds (forestUnmountEvents true cs.reverse)).Nodup := by
  rw [unmountIds_eq_filterMap] at h
  rw [unmountIds_eq_filterMap]
  exact ((forestUnmountEvents_reverse_perm true cs).filterMap evUnmountId).nodup_iff.mpr h

/-- C8 (amended): on a parent that is attached to the live document,
`updateChildren(parent, [])` with a non-empty actual child list removes all
the (excess trailing) actual children, and fires exactly the unmount walk of
each removed top-level child subtree once — the event list is precisely one
walk per removed element subtree in removal (last-first) order, an unmount
notification fires for an element of those subtrees exactly when it carries
an unmount hook, and when the hooked elements are pairwise distinct no
notification fires twice; a second call with the already-empty actual list
removes nothing and fires nothing.  On a detached parent the children are
removed without any notification (see the counterexample). -/
theorem updateChildrenEmptySpec (cs : List DomNode) (hne : cs ≠ [])
    (hnodup : (unmountIds (forestUnmountEvents true cs)).Nodup) :
    updateChildren true cs [] = ([], forestUnmountEvents true cs.reverse) ∧
    (∀ i, Ev.unmounted i ∈ forestUnmountEvents true cs.reverse ↔
      Ev.unmounted i ∈ forestUnmountEvents true cs) ∧
    (unmountIds (forestUnmountEvents true cs.reverse)).Nodup ∧
    updateChildren true [] [] = ([], []) := by
  refine ⟨?_, ?_, unmountIds_reverse_nodup cs hnodup, rfl⟩
  · simp [updateChildren, updateElementChildren, childWalk, removeTrailing_length]
  · intro i
    exact (forestUnmountEvents_reverse_perm true cs).mem_iff

/-- Witness for C8 at a concrete mounted parent with three children (two
elements, one text node) and three unmount hooks spread over two levels. -/
theorem updateChildrenEmptySpecWitness :
    ([DomNode.elem 1 false true [DomNode.elem 2 false true [], DomNode.text 3],
      DomNode.text 4, DomNode.elem 5 false false [DomNode.elem 6 false true []]] :
        List DomNode) ≠ [] ∧
    (unmountIds (forestUnmountEvents true
      [DomNode.elem 1 false true [DomNode.elem 2 false true [], DomNode.text 3],
        DomNode.text 4, DomNode.elem 5 false false [DomNode.elem 6 false true []]])).Nodup ∧
    (updateChildren true
        [DomNode.elem 1 false true [DomNode.elem 2 false true [], DomNode.text 3],
          DomNode.text 4, DomNode.elem 5 false false [DomNode.elem 6 false true []]] [] =
      ([], forestUnmountEvents true
        ([DomNode.elem 1 false true [DomNode.elem 2 false true [], DomNode.text 3],
          DomNode.text 4,
          DomNode.elem 5 false false [DomNode.elem 6 false true []]] : List DomNode).reverse) ∧
    (∀ i, Ev.unmounted i ∈ forestUnmountEvents true
        ([DomNode.elem 1 false true [DomNode.elem 2 false true [], DomNode.text 3],
          DomNode.text 4,
          DomNode.elem 5 false false [DomNode.elem 6 false true []]] : List DomNode).reverse ↔
      Ev.unmounted i ∈ forestUnmountEvents true
        [DomNode.elem 1 false true [DomNode.elem 2 false true [], DomNode.text 3],
          DomNode.text 4, DomNode.elem 5 false false [DomNode.elem 6 false true []]]) ∧
    (unmountIds (forestUnmountEvents true
      ([DomNode.elem 1 false true [DomNode.elem 2 false true [], DomNode.text 3],
        DomNode.text 4,
        DomNode.elem 5 false false [DomNode.elem 6 false true []]] : List DomNode).reverse)).Nodup ∧
    updateChildren true [] [] = ([], [])) := by
  refine ⟨by simp, by decide, ?_⟩
  exact updateChildrenEmptySpec
    [DomNode.elem 1 false true [DomNode.elem 2 false true [], DomNode.text 3],
      DomNode.text 4, DomNode.elem 5 false false [DomNode.elem 6 false true []]]
    (by simp) (by decide)

/-- C8 counterexample to the claim as stated: a parent NOT attached to the
live document with one child element that carries an unmount hook — the call
removes the child but fires zero unmount notifications (the walk is gated on
`document.body.contains(parent)`), while the removed subtree does carry a
hook, so "exactly one unmount notification per removed subtree" fails. -/
theorem updateChildrenDetachedCounterexample :
    updateChildren false [DomNode.elem 5 false true []] [] = ([], []) ∧
    forestUnmountEvents true [DomNode.elem 5 false true []] = [Ev.unmounted 5] := by
  exact ⟨rfl, rfl⟩
